import Mathlib

/-!
Verification of the filter/sort/aggregation logic of `app_dash.py`
(`apply_filters` and the aggregation blocks of `render_tabs`).

Modelling conventions (shallow embedding):
* a DataFrame row is a `Record`; nullable cells (`NaN` / `pd.NA`) are `Option`
  fields.  `year` is `Option Int` (nullable `Int64`), `cited_by` is `Int`
  (coerced with `fillna(0).astype(int)` at load), `percentile_2024` is
  `Option Rat` (exact rationals stand in for the float column: the program
  only compares these values, never does arithmetic that could round).
* `str(x)` applied to a nullable cell (pandas `astype(str)`) renders a missing
  value as the literal string `nan`; this is `pyStr`.
* the callback always receives the year range slider value as a two-element
  list, so `year_range` is modelled as a pair (the `if year_range:` truthiness
  guard of the source is then always true, and the `year_range[1]` fallback
  never faults).  `percentile_range` keeps its truthiness guard: `none`
  models Python `None`/`[]` (falsy, stage skipped); the unset multiselects
  `sources`/`authors` are modelled as `[]` (the source guards with
  `if sources and len(sources) > 0`).
-/

namespace ZhDash

/-- Publication record: one row of the loaded DataFrame, after the column
renaming and type coercions of `load_data`.  The `doi`/`url`/`issn` columns
are never consulted by the filter, sort or aggregation logic and are omitted. -/
structure Record where
  authors_raw : Option String
  title : Option String
  year : Option Int
  source : Option String
  cited_by : Int
  quartile : Option String
  percentile_2024 : Option Rat
deriving DecidableEq, Repr

/-- Filter criteria: the nine widget states passed to `apply_filters`. -/
structure Criteria where
  search : Option String
  year_preset : String
  year_range : Int × Int
  sources : List String
  authors : List String
  quartiles : List String
  percentile_range : Option (Rat × Rat)
  sort_by : String
deriving DecidableEq, Repr

/-- Python `str(x)` on a nullable cell (pandas `astype(str)`): a missing value
renders as the string `nan`. -/
def pyStr : Option String → String
  | some s => s
  | none => "nan"

/-- Maximum of a list of integers, `none` on the empty list (models
`Series.max()` over the non-null values of a column). -/
def intListMax : List Int → Option Int
  | [] => none
  | x :: xs =>
    match intListMax xs with
    | none => some x
    | some m => some (max x m)

theorem intListMax_eq_none {l : List Int} (h : intListMax l = none) : l = [] := by
  cases l with
  | nil => rfl
  | cons x xs =>
    unfold intListMax at h
    cases hx : intListMax xs <;> rw [hx] at h <;> simp at h

theorem intListMax_le {l : List Int} {m a : Int} (hm : intListMax l = some m)
    (ha : a ∈ l) : a ≤ m := by
  induction l generalizing m with
  | nil => cases ha
  | cons x xs ih =>
    unfold intListMax at hm
    cases hx : intListMax xs with
    | none =>
      rw [hx] at hm
      cases hm
      rcases List.mem_cons.mp ha with h | h
      · exact le_of_eq h
      · rw [intListMax_eq_none hx] at h; cases h
    | some k =>
      rw [hx] at hm
      cases hm
      rcases List.mem_cons.mp ha with h | h
      · exact le_trans (le_of_eq h) (le_max_left x k)
      · exact le_trans (ih hx h) (le_max_right x k)

/-- Boolean test that `needle` occurs at the head of `hay` (used to build
Python substring containment). -/
def listStarts [DecidableEq α] : List α → List α → Bool
  | [], _ => true
  | _ :: _, [] => false
  | a :: as, b :: bs => decide (a = b) && listStarts as bs

/-- Boolean test that `needle` occurs contiguously somewhere in `hay`. -/
def listOccurs [DecidableEq α] : List α → List α → Bool
  | needle, [] => listStarts needle []
  | needle, b :: bs => listStarts needle (b :: bs) || listOccurs needle bs

/-- Python `needle in hay` on strings: contiguous substring containment. -/
def strContains (hay needle : String) : Bool := listOccurs needle.data hay.data

/-- Splitting a character list on a separator character; the result always
has one piece more than there are separators, exactly like Python
`str.split(sep)` with a one-character separator (an empty input yields
`[""]`). -/
def splitSemiAux (sep : Char) : List Char → List Char → List (List Char)
  | [], acc => [acc.reverse]
  | c :: cs, acc =>
    if c = sep then acc.reverse :: splitSemiAux sep cs []
    else splitSemiAux sep cs (c :: acc)

/-- Python `s.split(";")`. -/
def pySplitSemi (s : String) : List String :=
  (splitSemiAux (Char.ofNat 59) s.data []).map (fun cs => String.mk cs)

/-- Character code 59 is the semicolon, the separator of the author column. -/
theorem semi_is_code59 : Char.ofNat 59 = ';' := rfl

/-- Python `s.strip()`: drop leading and trailing whitespace. -/
def pyStrip (s : String) : String :=
  String.mk (((s.data.dropWhile Char.isWhitespace).reverse.dropWhile
    Char.isWhitespace).reverse)

/-- Source line 183: the year used as reference for the presets.  Pandas
`df_in["year"].max()` ignores missing cells; when every year is missing the
source falls back to `year_range[1]`. -/
def maxYearOf (full : List Record) (fallback : Int) : Int :=
  (intListMax (full.filterMap Record.year)).getD fallback

/-- Predicate of the preset branches (lines 184-187): pandas
`df_f["year"].fillna(0) >= threshold`, a missing year counting as 0. -/
def yearPresetPred (threshold : Int) (r : Record) : Bool :=
  decide (threshold ≤ r.year.getD 0)

/-- Predicate of the range branch (line 191): pandas
`df_f["year"].between(lo, hi)`, inclusive on both ends; on a missing year
`between` yields a missing boolean, which the row mask treats as `False`. -/
def yearRangePred (yr : Int × Int) (r : Record) : Bool :=
  match r.year with
  | some y => decide (yr.1 ≤ y ∧ y ≤ yr.2)
  | none => false

/-- Year stage (lines 182-191).  `full` is `df_in` (the call argument, used
for the preset reference year), `l` the frame being filtered; the source
applies this first, when both coincide. -/
def yearStage (c : Criteria) (full l : List Record) : List Record :=
  let maxY := maxYearOf full c.year_range.2
  if c.year_preset = "last5" then l.filter (yearPresetPred (maxY - 4))
  else if c.year_preset = "last10" then l.filter (yearPresetPred (maxY - 9))
  else l.filter (yearRangePred c.year_range)

/-- Quartile predicate (line 195): `df_f["quartile"].astype(str).isin(quartiles)`;
a missing quartile is stringified to the literal `nan` before the test. -/
def quartPred (qs : List String) (r : Record) : Bool := decide (pyStr r.quartile ∈ qs)

/-- Quartile stage (lines 194-195): guarded by `if quartiles:` — an empty
selection is falsy in Python, so the stage is skipped entirely. -/
def quartStage (qs : List String) (l : List Record) : List Record :=
  if qs = [] then l else l.filter (quartPred qs)

/-- Percentile predicate (lines 199-200): missing percentiles are
`fillna(-1)` before the inclusive range test. -/
def pctPred (pr : Rat × Rat) (r : Record) : Bool :=
  decide (pr.1 ≤ r.percentile_2024.getD (-1) ∧ r.percentile_2024.getD (-1) ≤ pr.2)

/-- Percentile stage (lines 198-200), guarded by `if percentile_range:`. -/
def pctStage (pr : Option (Rat × Rat)) (l : List Record) : List Record :=
  match pr with
  | none => l
  | some pr => l.filter (pctPred pr)

/-- Source predicate (line 204): `df_f["source"].isin(sources)`; a missing
source never equals a selected string. -/
def srcPred (ss : List String) (r : Record) : Bool :=
  match r.source with
  | some s => decide (s ∈ ss)
  | none => false

/-- Sources stage (lines 203-204), guarded by `if sources and len(sources) > 0`. -/
def srcStage (ss : List String) (l : List Record) : List Record :=
  if ss = [] then l else l.filter (srcPred ss)

/-- Author predicate (lines 208-210): keep the row when ANY selected author,
stripped, occurs as a substring of `str(authors_raw)`. -/
def authPred (sel : List String) (r : Record) : Bool :=
  sel.any (fun a => strContains (pyStr r.authors_raw) (pyStrip a))

/-- Authors stage (lines 207-211), guarded by `if authors and len(authors) > 0`. -/
def authStage (sel : List String) (l : List Record) : List Record :=
  if sel = [] then l else l.filter (authPred sel)

/-- Search predicate (lines 215-220).  Modelled from the spec for the match
itself: the source tests the lowercased query with `Series.str.contains`,
which interprets it as a regular expression (see the notes on the search
claim); the spec prescribes literal substring containment, which is what is
embedded here and what the source computes whenever the query contains no
regex metacharacter.  The three haystacks are the `_lc` columns precomputed
at load: `str(x).lower()` of title, authors_raw and source. -/
def searchPred (q : String) (r : Record) : Bool :=
  strContains (pyStr r.title).toLower q.toLower ||
  strContains (pyStr r.authors_raw).toLower q.toLower ||
  strContains (pyStr r.source).toLower q.toLower

/-- Search stage (lines 214-221), guarded by
`if search and str(search).strip() != ""`: a missing, empty or all-blank
query disables the stage. -/
def searchStage (s : Option String) (l : List Record) : List Record :=
  match s with
  | none => l
  | some q => if pyStrip q = "" then l else l.filter (searchPred q)

/-- The conjunctive filter part of `apply_filters` (lines 180-221), in source
order: year, quartile, percentile, sources, authors, search.  At the year
stage the frame is still the untouched copy of the input, hence `l` is passed
both as `df_in` and as the current frame. -/
def filterStages (c : Criteria) (l : List Record) : List Record :=
  searchStage c.search
    (authStage c.authors
      (srcStage c.sources
        (pctStage c.percentile_range
          (quartStage c.quartiles
            (yearStage c l l)))))

/-- Lift a relation along the missing-last convention of
`sort_values(..., na_position="last")`: present values compare by `le`,
missing values collect after every present one. -/
def naLast (le : β → β → Prop) : Option β → Option β → Prop
  | some x, some y => le x y
  | some _, none => True
  | none, some _ => False
  | none, none => True

/-- Reversed relation, for the descending sort modes. -/
def flipRel (r : β → β → Prop) : β → β → Prop := fun a b => r b a

/-- Comparison of records through a sort-key projection. -/
def pullback (f : α → γ) (r : γ → γ → Prop) : α → α → Prop := fun a b => r (f a) (f b)

instance (le : β → β → Prop) [DecidableRel le] : DecidableRel (naLast le) := fun a b =>
  match a, b with
  | some x, some y => inferInstanceAs (Decidable (le x y))
  | some _, none => inferInstanceAs (Decidable True)
  | none, some _ => inferInstanceAs (Decidable False)
  | none, none => inferInstanceAs (Decidable True)

instance (le : β → β → Prop) [IsTotal β le] : IsTotal (Option β) (naLast le) where
  total a b := by
    cases a <;> cases b
    · exact Or.inl trivial
    · exact Or.inr trivial
    · exact Or.inl trivial
    · exact @IsTotal.total β le inferInstance _ _

instance (le : β → β → Prop) [IsTrans β le] : IsTrans (Option β) (naLast le) where
  trans a b c h1 h2 := by
    cases a <;> cases b <;> cases c
    all_goals first
      | exact trivial
      | exact False.elim h1
      | exact False.elim h2
      | exact @IsTrans.trans β le inferInstance _ _ _ h1 h2

instance (r : β → β → Prop) [DecidableRel r] : DecidableRel (flipRel r) := fun a b =>
  inferInstanceAs (Decidable (r b a))

instance (r : β → β → Prop) [IsTotal β r] : IsTotal β (flipRel r) :=
  ⟨fun a b => IsTotal.total b a⟩

instance (r : β → β → Prop) [IsTrans β r] : IsTrans β (flipRel r) :=
  ⟨fun a b c h1 h2 => IsTrans.trans c b a h2 h1⟩

instance (f : α → γ) (r : γ → γ → Prop) [DecidableRel r] : DecidableRel (pullback f r) :=
  fun a b => inferInstanceAs (Decidable (r (f a) (f b)))

instance (f : α → γ) (r : γ → γ → Prop) [IsTotal γ r] : IsTotal α (pullback f r) :=
  ⟨fun a b => IsTotal.total (f a) (f b)⟩

instance (f : α → γ) (r : γ → γ → Prop) [IsTrans γ r] : IsTrans α (pullback f r) :=
  ⟨fun a b c => IsTrans.trans (f a) (f b) (f c)⟩

/-- Key order for `sort_values(by="year", ascending=False, na_position="last")`. -/
abbrev relYearDesc : Record → Record → Prop :=
  pullback Record.year (naLast (flipRel (fun x y : Int => x ≤ y)))

/-- Key order for `sort_values(by="year", ascending=True, na_position="last")`. -/
abbrev relYearAsc : Record → Record → Prop :=
  pullback Record.year (naLast (fun x y : Int => x ≤ y))

/-- Key order for `sort_values(by="cited_by", ascending=False)` (the column is
never missing after load). -/
abbrev relCitedDesc : Record → Record → Prop :=
  pullback Record.cited_by (flipRel (fun x y : Int => x ≤ y))

/-- Key order for `sort_values(by="cited_by", ascending=True)`. -/
abbrev relCitedAsc : Record → Record → Prop :=
  pullback Record.cited_by (fun x y : Int => x ≤ y)

/-- Key order for `sort_values(by="percentile_2024", ascending=False,
na_position="last")`. -/
abbrev relPctDesc : Record → Record → Prop :=
  pullback Record.percentile_2024 (naLast (flipRel (fun x y : Rat => x ≤ y)))

/-- Key order for `sort_values(by="authors_raw", ascending=True)`; pandas
places missing cells last by default. -/
abbrev relAuthorAsc : Record → Record → Prop :=
  pullback Record.authors_raw (naLast (fun x y : String => x ≤ y))

/-- Key order for `sort_values(by="authors_raw", ascending=False)`; missing
cells still last (`na_position` defaults to `"last"`). -/
abbrev relAuthorDesc : Record → Record → Prop :=
  pullback Record.authors_raw (naLast (flipRel (fun x y : String => x ≤ y)))

/-- Key order for `sort_values(by="source", ascending=True)`. -/
abbrev relSourceAsc : Record → Record → Prop :=
  pullback Record.source (naLast (fun x y : String => x ≤ y))

/-- Key order for `sort_values(by="source", ascending=False)`. -/
abbrev relSourceDesc : Record → Record → Prop :=
  pullback Record.source (naLast (flipRel (fun x y : String => x ≤ y)))

/-- Key order for `sort_values(by="title", ascending=True)`. -/
abbrev relTitleAsc : Record → Record → Prop :=
  pullback Record.title (naLast (fun x y : String => x ≤ y))

/-- Sort step of `apply_filters` (lines 223-244): the ten recognised modes
rearrange the rows by the corresponding key; any other value of `sort_by`
falls through the if/elif chain and the frame is returned unsorted.  The
source calls `sort_values` without a `kind` argument, so pandas runs its
default quicksort, which does NOT guarantee the relative order of tied keys;
the embedding fixes one conforming comparison sort (`List.insertionSort`),
and only the properties shared by every conforming implementation — the
output is a permutation of the input, arranged according to the active key
order, and membership is preserved — are ever asserted of the program.  Tie
order (and with it stability, or the sort being the identity on an already
key-sorted frame) is deliberately never relied upon. -/
def applySort (mode : String) (l : List Record) : List Record :=
  if mode = "year_desc" then l.insertionSort relYearDesc
  else if mode = "year_asc" then l.insertionSort relYearAsc
  else if mode = "cited_desc" then l.insertionSort relCitedDesc
  else if mode = "cited_asc" then l.insertionSort relCitedAsc
  else if mode = "pct_desc" then l.insertionSort relPctDesc
  else if mode = "author_az" then l.insertionSort relAuthorAsc
  else if mode = "author_za" then l.insertionSort relAuthorDesc
  else if mode = "source_az" then l.insertionSort relSourceAsc
  else if mode = "source_za" then l.insertionSort relSourceDesc
  else if mode = "title_az" then l.insertionSort relTitleAsc
  else l

/-- The whole of `apply_filters` (lines 171-244): conjunctive filtering in
source order, then the sort step. -/
def apply_filters (l : List Record) (c : Criteria) : List Record :=
  applySort c.sort_by (filterStages c l)

/-- State-passing reading of `apply_filters`: the record store `df_in` is the
mutable state, and the call returns the derived view together with the store
as it stands after the call.  The source takes `df_f = df_in.copy()` on line
180 and only ever rebinds `df_f`, so the store component is simply returned
untouched. -/
def applyFiltersSt (store : List Record) (c : Criteria) : List Record × List Record :=
  let df_f := store
  (applySort c.sort_by (filterStages c df_f), store)

/-! Helper lemmas: each stage is a `List.filter` with an effective predicate
(the guarded stages pass everything through when their criterion is unset). -/

/-- Effective year predicate: the branch selection of lines 183-191. -/
def yearPredOf (c : Criteria) (full : List Record) : Record → Bool :=
  if c.year_preset = "last5" then yearPresetPred (maxYearOf full c.year_range.2 - 4)
  else if c.year_preset = "last10" then yearPresetPred (maxYearOf full c.year_range.2 - 9)
  else yearRangePred c.year_range

/-- Effective quartile predicate: everything passes when the selection is empty. -/
def quartOptPred (qs : List String) (r : Record) : Bool :=
  decide (qs = []) || quartPred qs r

/-- Effective percentile predicate. -/
def pctOptPred (pr : Option (Rat × Rat)) (r : Record) : Bool :=
  match pr with
  | none => true
  | some pr => pctPred pr r

/-- Effective source predicate. -/
def srcOptPred (ss : List String) (r : Record) : Bool :=
  decide (ss = []) || srcPred ss r

/-- Effective author predicate. -/
def authOptPred (sel : List String) (r : Record) : Bool :=
  decide (sel = []) || authPred sel r

/-- Effective search predicate. -/
def searchOptPred (s : Option String) (r : Record) : Bool :=
  match s with
  | none => true
  | some q => decide (pyStrip q = "") || searchPred q r

theorem yearStage_eq_filter (c : Criteria) (full l : List Record) :
    yearStage c full l = l.filter (yearPredOf c full) := by
  simp only [yearStage, yearPredOf]
  split_ifs <;> rfl

theorem quartStage_eq_filter (qs : List String) (l : List Record) :
    quartStage qs l = l.filter (quartOptPred qs) := by
  unfold quartStage quartOptPred
  by_cases h : qs = []
  · simp [h]
  · simp [h]

theorem pctStage_eq_filter (pr : Option (Rat × Rat)) (l : List Record) :
    pctStage pr l = l.filter (pctOptPred pr) := by
  cases pr with
  | none => exact (List.filter_eq_self.mpr (fun a _ => rfl)).symm
  | some pr => rfl

theorem srcStage_eq_filter (ss : List String) (l : List Record) :
    srcStage ss l = l.filter (srcOptPred ss) := by
  unfold srcStage srcOptPred
  by_cases h : ss = []
  · simp [h]
  · simp [h]

theorem authStage_eq_filter (sel : List String) (l : List Record) :
    authStage sel l = l.filter (authOptPred sel) := by
  unfold authStage authOptPred
  by_cases h : sel = []
  · simp [h]
  · simp [h]

theorem searchStage_eq_filter (s : Option String) (l : List Record) :
    searchStage s l = l.filter (searchOptPred s) := by
  cases s with
  | none => exact (List.filter_eq_self.mpr (fun a _ => rfl)).symm
  | some q =>
    unfold searchStage searchOptPred
    by_cases h : pyStrip q = ""
    · simp [h]
    · simp [h]

/-- Effective predicate of the whole conjunctive filter part, for input `full`. -/
def fullPred (c : Criteria) (full : List Record) (r : Record) : Bool :=
  searchOptPred c.search r &&
    (authOptPred c.authors r &&
      (srcOptPred c.sources r &&
        (pctOptPred c.percentile_range r &&
          (quartOptPred c.quartiles r && yearPredOf c full r))))

theorem filterStages_eq_filter (c : Criteria) (l : List Record) :
    filterStages c l = l.filter (fullPred c l) := by
  unfold filterStages
  rw [yearStage_eq_filter, quartStage_eq_filter, pctStage_eq_filter,
    srcStage_eq_filter, authStage_eq_filter, searchStage_eq_filter]
  simp only [List.filter_filter]
  rfl

/-- With the preset `all`, the effective predicate does not depend on the
input frame. -/
def allPredC (c : Criteria) (r : Record) : Bool :=
  searchOptPred c.search r &&
    (authOptPred c.authors r &&
      (srcOptPred c.sources r &&
        (pctOptPred c.percentile_range r &&
          (quartOptPred c.quartiles r && yearRangePred c.year_range r))))

theorem fullPred_all {c : Criteria} (h : c.year_preset = "all") (full : List Record) :
    fullPred c full = allPredC c := by
  funext r
  unfold fullPred allPredC yearPredOf
  rw [h, if_neg (by decide), if_neg (by decide)]

/-- Whatever the mode, the sort step only rearranges the rows; this holds of
any comparison sort, the unstable library default included. -/
theorem perm_applySort (m : String) (l : List Record) : (applySort m l).Perm l := by
  unfold applySort
  split_ifs <;> first | exact List.perm_insertionSort _ _ | exact List.Perm.refl _

theorem mem_applySort {m : String} {l : List Record} {r : Record} :
    r ∈ applySort m l ↔ r ∈ l := by
  unfold applySort
  split_ifs <;> first | exact List.mem_insertionSort _ | exact Iff.rfl

theorem mem_filterStages {c : Criteria} {l : List Record} {r : Record}
    (h : r ∈ filterStages c l) : r ∈ l := by
  rw [filterStages_eq_filter] at h
  exact List.mem_of_mem_filter h

theorem mem_apply_filters {c : Criteria} {l : List Record} {r : Record}
    (h : r ∈ apply_filters l c) : r ∈ l := by
  unfold apply_filters at h
  exact mem_filterStages (mem_applySort.mp h)

/-! Concrete fixtures used by witnesses and counterexamples. -/

/-- A fully populated record. -/
def recA : Record :=
  { authors_raw := some "Smith J.; Doe A.", title := some "Numerical methods",
    year := some 2020, source := some "Applied Math", cited_by := 5,
    quartile := some "Q1", percentile_2024 := some 75 }

/-- Criteria that keep every record of the fixtures: widest year range, empty
selections, no search, no percentile restriction. -/
def cBase : Criteria :=
  { search := none, year_preset := "all", year_range := (0, 3000),
    sources := [], authors := [], quartiles := [], percentile_range := none,
    sort_by := "year_desc" }

/-- Claim C1, counterexample.  The claim reads: when `quartiles` is the empty
set, filtering excludes every record, whatever the other criteria.  The
source guards the stage with `if quartiles:` (line 194), and an empty Python
list is falsy, so the stage is skipped instead: with every other criterion
permissive a record survives, hence a nonempty result. -/
theorem claim1_counterexample : apply_filters [recA] cBase ≠ [] := by decide

/-- Claim C1, amended.  An empty `quartiles` selection applies no quartile
filtering at all (the truthiness guard of line 194 skips the stage, so every
record passes it unchanged); it does not exclude everything. -/
theorem claim1_amended (l : List Record) : quartStage [] l = l := rfl

/-- Claim C8 (confirmed).  Under `year_desc` and `year_asc` the sort returns a
permutation of its input in which every record with a missing year is placed
after all records carrying a year (`na_position="last"` in both directions),
and the carried years are ordered decreasingly, resp. increasingly. -/
theorem claim8_theorem (l : List Record) :
    ((applySort "year_desc" l).Perm l ∧
      (applySort "year_desc" l).Pairwise (fun a b =>
        (a.year = none → b.year = none) ∧
        ∀ x y : Int, a.year = some x → b.year = some y → y ≤ x)) ∧
    ((applySort "year_asc" l).Perm l ∧
      (applySort "year_asc" l).Pairwise (fun a b =>
        (a.year = none → b.year = none) ∧
        ∀ x y : Int, a.year = some x → b.year = some y → x ≤ y)) := by
  have hdesc : applySort "year_desc" l = l.insertionSort relYearDesc := by
    unfold applySort; rw [if_pos rfl]
  have hasc : applySort "year_asc" l = l.insertionSort relYearAsc := by
    unfold applySort; rw [if_neg (by decide), if_pos rfl]
  constructor
  · constructor
    · rw [hdesc]; exact List.perm_insertionSort _ _
    · rw [hdesc]
      refine (List.sorted_insertionSort relYearDesc l).imp ?_
      intro a b hab
      have hab2 : naLast (flipRel (fun x y : Int => x ≤ y)) a.year b.year := hab
      constructor
      · intro ha
        rw [ha] at hab2
        cases hb : b.year with
        | none => rfl
        | some y => rw [hb] at hab2; exact False.elim hab2
      · intro x y hx hy
        rw [hx, hy] at hab2
        exact hab2
  · constructor
    · rw [hasc]; exact List.perm_insertionSort _ _
    · rw [hasc]
      refine (List.sorted_insertionSort relYearAsc l).imp ?_
      intro a b hab
      have hab2 : naLast (fun x y : Int => x ≤ y) a.year b.year := hab
      constructor
      · intro ha
        rw [ha] at hab2
        cases hb : b.year with
        | none => rfl
        | some y => rw [hb] at hab2; exact False.elim hab2
      · intro x y hx hy
        rw [hx, hy] at hab2
        exact hab2

/-- Claim C10 (confirmed).  When `sort_by` is none of the ten recognised mode
strings, the whole if/elif chain of lines 224-243 falls through without
raising, and `apply_filters` returns the conjunctively filtered rows in their
pre-sort order.  The embedding is total, mirroring the absence of any raise
in the source. -/
theorem claim10_theorem (l : List Record) (c : Criteria)
    (h : c.sort_by ∉ ["year_desc", "year_asc", "cited_desc", "cited_asc",
      "pct_desc", "author_az", "author_za", "source_az", "source_za",
      "title_az"]) :
    apply_filters l c = filterStages c l := by
  simp only [List.mem_cons, List.not_mem_nil, or_false, not_or] at h
  obtain ⟨h1, h2, h3, h4, h5, h6, h7, h8, h9, h10⟩ := h
  unfold apply_filters applySort
  rw [if_neg h1, if_neg h2, if_neg h3, if_neg h4, if_neg h5, if_neg h6,
    if_neg h7, if_neg h8, if_neg h9, if_neg h10]

/-- Criteria with an unrecognised sort mode. -/
def cBogusSort : Criteria := { cBase with sort_by := "bogus" }

theorem claim10_witness :
    cBogusSort.sort_by ∉ (["year_desc", "year_asc", "cited_desc", "cited_asc",
      "pct_desc", "author_az", "author_za", "source_az", "source_za",
      "title_az"] : List String) ∧
    apply_filters [recA] cBogusSort = filterStages cBogusSort [recA] :=
  ⟨by decide, claim10_theorem [recA] cBogusSort (by decide)⟩

/-- Claim C9 (confirmed).  In the state-passing reading, a call to
`apply_filters` leaves the record store exactly as it was (the source copies
`df_in` on line 180 and only rebinds the copy), the returned view is the
value of the pure function of the inputs (determinism), and every row of the
view is a row of the store — the view is derived, never written back. -/
theorem claim9_theorem (s : List Record) (c : Criteria) :
    applyFiltersSt s c = (apply_filters s c, s) ∧
    ∀ r ∈ (applyFiltersSt s c).1, r ∈ s :=
  ⟨rfl, fun _ hr => mem_apply_filters hr⟩

theorem claim9_witness :
    applyFiltersSt [recA] cBase = (apply_filters [recA] cBase, [recA]) ∧
    recA ∈ [recA] :=
  ⟨(claim9_theorem [recA] cBase).1, (claim9_theorem [recA] cBase).2 recA (by decide)⟩

/-- Claim C6 (confirmed).  A record whose `percentile_2024` is absent is
compared as `-1` (line 199 `fillna(-1)`), so it fails any supplied percentile
range whose lower bound is non-negative and never reaches the output. -/
theorem claim6_theorem (l : List Record) (c : Criteria) (lo hi : Rat)
    (hc : c.percentile_range = some (lo, hi)) (hlo : 0 ≤ lo) :
    ∀ r ∈ apply_filters l c, r.percentile_2024 ≠ none := by
  intro r hr hnone
  unfold apply_filters at hr
  have h1 : r ∈ filterStages c l := mem_applySort.mp hr
  rw [filterStages_eq_filter] at h1
  have h2 := List.of_mem_filter h1
  unfold fullPred at h2
  simp only [Bool.and_eq_true] at h2
  have h3 := h2.2.2.2.1
  rw [hc] at h3
  unfold pctOptPred pctPred at h3
  rw [hnone] at h3
  simp only [Option.getD, decide_eq_true_eq] at h3
  have : (0 : Rat) ≤ -1 := le_trans hlo h3.1
  norm_num at this

/-- A record with the percentile column missing. -/
def recNoPct : Record := { recA with percentile_2024 := none }

/-- Criteria asking for the percentile range of the spec scenario. -/
def cPct : Criteria := { cBase with percentile_range := some (50, 100) }

theorem claim6_witness :
    cPct.percentile_range = some (50, 100) ∧ (0 : Rat) ≤ 50 ∧
    ∀ r ∈ apply_filters [recNoPct] cPct, r.percentile_2024 ≠ none :=
  ⟨rfl, by norm_num, claim6_theorem [recNoPct] cPct 50 100 rfl (by norm_num)⟩

/-- A record with a very small year, and one with no year at all: the presets
recompute their reference year from whatever frame they receive, which is
what breaks idempotence and the preset/range equivalence on degenerate data. -/
def recY2 : Record :=
  { authors_raw := some "Aliev B.", title := some "Old result", year := some 2,
    source := some "Vestnik", cited_by := 1, quartile := some "Q1",
    percentile_2024 := none }

/-- A record whose year cell is missing. -/
def recNoYear : Record :=
  { authors_raw := some "Baker C.", title := some "Undated note", year := none,
    source := some "Vestnik", cited_by := 0, quartile := some "Q2",
    percentile_2024 := none }

/-- Preset last5 combined with a quartile selection that removes every
year-carrying record. -/
def cPresetQ2 : Criteria := { cBase with year_preset := "last5", quartiles := ["Q2"] }

/-- Claim C4, counterexample.  The claim asserts idempotence for every
criteria value.  With `year_preset = "last5"` the reference year is
recomputed from the frame passed in (line 183): on the first call the
dataset's maximum year is 2, the threshold 2 - 4 = -2 keeps the missing-year
record (filled as 0), and the quartile stage then drops the only
year-carrying record.  Reapplying the same criteria to that output finds no
year at all, falls back to the slider upper bound 3000, and the threshold
2996 now drops the record: the second application shrinks the result. -/
theorem claim4_counterexample :
    apply_filters (apply_filters [recY2, recNoYear] cPresetQ2) cPresetQ2 ≠
      apply_filters [recY2, recNoYear] cPresetQ2 := by decide

/-- Claim C4, amended.  With `year_preset = "all"` every filter stage is a
fixed-predicate filter, so re-filtering the pipeline's own output with the
same criteria returns it verbatim (every row of the output already satisfies
every predicate, and an all-true row mask selects the frame unchanged), and a
second full application can therefore at most re-sort: it returns a
permutation of the first application's output.  Nothing stronger is claimed:
sequence-level idempotence would additionally require the sort to leave an
already key-sorted frame untouched, which the source's `sort_values` — run
with pandas' default unstable quicksort — does not guarantee for tied keys.
(With the `last5`/`last10` presets even the row multiset changes, as the
counterexample shows.) -/
theorem claim4_amended (l : List Record) (c : Criteria) (h : c.year_preset = "all") :
    filterStages c (apply_filters l c) = apply_filters l c ∧
    (apply_filters (apply_filters l c) c).Perm (apply_filters l c) := by
  have hfs : ∀ m : List Record, filterStages c m = List.filter (allPredC c) m := by
    intro m
    rw [filterStages_eq_filter, fullPred_all h]
  have hself : filterStages c (apply_filters l c) = apply_filters l c := by
    rw [hfs]
    apply List.filter_eq_self.mpr
    intro r hr
    unfold apply_filters at hr
    rw [hfs] at hr
    exact List.of_mem_filter (mem_applySort.mp hr)
  refine ⟨hself, ?_⟩
  have hunf : apply_filters (apply_filters l c) c =
      applySort c.sort_by (filterStages c (apply_filters l c)) := rfl
  rw [hunf, hself]
  exact perm_applySort _ _

theorem claim4_witness :
    cBase.year_preset = "all" ∧
    (filterStages cBase (apply_filters [recA] cBase) = apply_filters [recA] cBase ∧
      (apply_filters (apply_filters [recA] cBase) cBase).Perm (apply_filters [recA] cBase)) :=
  ⟨rfl, claim4_amended [recA] cBase rfl⟩

/-- Pointwise equality of the preset predicate and the range predicate over
the records of `l`, provided the maximum year `M` of `l` makes the threshold
`M - d` positive (so that a missing year, filled as 0, fails it). -/
theorem yearPred_point_eq {l : List Record} {M : Int} (d : Int)
    (hM : intListMax (l.filterMap Record.year) = some M) (hd : 0 < M - d)
    {r : Record} (hr : r ∈ l) :
    yearPresetPred (M - d) r = yearRangePred (M - d, M) r := by
  unfold yearPresetPred yearRangePred
  cases hy : r.year with
  | none =>
    simp only [Option.getD_none]
    exact decide_eq_false (by omega)
  | some y =>
    have hyM : y ≤ M := intListMax_le hM (List.mem_filterMap.mpr ⟨r, hr, hy⟩)
    simp only [Option.getD_some]
    exact decide_eq_decide.mpr ⟨fun h1 => ⟨h1, hyM⟩, fun h1 => h1.1⟩

/-- Claim C5, amended.  With the criteria fields spelled out, the preset
`last5` (resp. `last10`) filters exactly like the preset `all` with the
explicit inclusive range [maxYear-4, maxYear] (resp. [maxYear-9, maxYear])
computed from the maximum year `M` of the unfiltered dataset — provided the
resulting threshold is positive (5 ≤ M, resp. 10 ≤ M), which is what makes a
missing year, treated as 0 by the preset, fail the preset exactly as it fails
the explicit range.  (The counterexample shows the equivalence breaks without
that proviso.) -/
theorem claim5_amended (l : List Record) (se : Option String) (yr : Int × Int)
    (ss sel qs : List String) (pr : Option (Rat × Rat)) (m : String) (M : Int)
    (hM : intListMax (l.filterMap Record.year) = some M) :
    (5 ≤ M → apply_filters l ⟨se, "last5", yr, ss, sel, qs, pr, m⟩ =
      apply_filters l ⟨se, "all", (M - 4, M), ss, sel, qs, pr, m⟩) ∧
    (10 ≤ M → apply_filters l ⟨se, "last10", yr, ss, sel, qs, pr, m⟩ =
      apply_filters l ⟨se, "all", (M - 9, M), ss, sel, qs, pr, m⟩) := by
  have hmax : ∀ fb : Int, maxYearOf l fb = M := by
    intro fb
    unfold maxYearOf
    rw [hM]
    rfl
  constructor
  · intro h5
    unfold apply_filters
    apply congrArg
    rw [filterStages_eq_filter, filterStages_eq_filter]
    apply List.filter_congr
    intro r hr
    unfold fullPred
    have e1 : yearPredOf ⟨se, "last5", yr, ss, sel, qs, pr, m⟩ l =
        yearPresetPred (maxYearOf l yr.2 - 4) := rfl
    have e2 : yearPredOf ⟨se, "all", (M - 4, M), ss, sel, qs, pr, m⟩ l =
        yearRangePred (M - 4, M) := rfl
    rw [e1, e2, hmax yr.2]
    rw [yearPred_point_eq 4 hM (by omega) hr]
  · intro h10
    unfold apply_filters
    apply congrArg
    rw [filterStages_eq_filter, filterStages_eq_filter]
    apply List.filter_congr
    intro r hr
    unfold fullPred
    have e1 : yearPredOf ⟨se, "last10", yr, ss, sel, qs, pr, m⟩ l =
        yearPresetPred (maxYearOf l yr.2 - 9) := rfl
    have e2 : yearPredOf ⟨se, "all", (M - 9, M), ss, sel, qs, pr, m⟩ l =
        yearRangePred (M - 9, M) := rfl
    rw [e1, e2, hmax yr.2]
    rw [yearPred_point_eq 9 hM (by omega) hr]

theorem claim5_witness :
    intListMax ([recA].filterMap Record.year) = some 2020 ∧ (5 : Int) ≤ 2020 ∧
    apply_filters [recA] ⟨none, "last5", (0, 3000), [], [], [], none, "year_desc"⟩ =
      apply_filters [recA] ⟨none, "all", (2020 - 4, 2020), [], [], [], none, "year_desc"⟩ :=
  ⟨by decide, by decide,
    (claim5_amended [recA] none (0, 3000) [] [] [] none "year_desc" 2020 (by decide)).1
      (by decide)⟩

/-- A record with year 3: small enough that the preset threshold 3 - 4 = -1
is non-positive. -/
def recY3 : Record := { recY2 with year := some 3 }

/-- Preset last5, other criteria permissive. -/
def cLast5 : Criteria := { cBase with year_preset := "last5" }

/-- Preset all with the explicit range [maxYear-4, maxYear] = [-1, 3] of the
dataset below. -/
def cRangeM : Criteria := { cBase with year_range := (-1, 3) }

/-- Claim C5, counterexample.  On a dataset whose maximum year is 3, the
preset keeps the missing-year record (0 is above the threshold -1), while the
claimed equivalent explicit range [-1, 3] drops it (`between` is false on a
missing year): the two calls differ. -/
theorem claim5_counterexample :
    apply_filters [recY3, recNoYear] cLast5 ≠ apply_filters [recY3, recNoYear] cRangeM := by
  decide

/-! Aggregations of `render_tabs`: top sources (lines 356-360) and top
authors (lines 378-385).  The display-only steps — ordering the groups by
descending count and truncating to the first 20 — permute or project the
group list and are irrelevant to the claimed count sums, so the groups are
enumerated in first-appearance key order here. -/

/-- Keys of `filtered.groupby("source")`: pandas drops rows whose key is
missing (`dropna=True` by default), each remaining distinct source is one
group. -/
def venueKeys (l : List Record) : List String := (l.filterMap Record.source).dedup

/-- Per-venue aggregation (lines 357-360): for each group,
`pub_count=("title", "count")` counts the rows of the group whose title cell
is present (pandas `count` skips missing values), and `cites=("cited_by",
"sum")` sums the citation column. -/
def venueGroups (l : List Record) : List (String × Nat × Int) :=
  (venueKeys l).map (fun s =>
    (s, (l.filter (fun r => decide (r.source = some s))).countP (fun r => r.title.isSome),
      ((l.filter (fun r => decide (r.source = some s))).map Record.cited_by).sum))

/-- Line 379: `str(authors_raw).split(";")` then elementwise `str.strip()`
(the source strips after exploding; stripping each fragment before pairing
it with its row is the same list). -/
def authorFragsAll (r : Record) : List String :=
  (pySplitSemi (pyStr r.authors_raw)).map pyStrip

/-- The exploded frame (lines 379-381): one row per (fragment, record) pair. -/
def explodedAuthors (l : List Record) : List (String × Record) :=
  l.flatMap (fun r => (authorFragsAll r).map (fun a => (a, r)))

/-- Line 382: exploded rows whose fragment is nonempty. -/
def keptAuthors (l : List Record) : List (String × Record) :=
  (explodedAuthors l).filter (fun p => decide (¬p.1 = ""))

/-- Keys of `groupby("_authors")` over the kept exploded rows. -/
def authorKeys (l : List Record) : List String :=
  ((keptAuthors l).map Prod.fst).dedup

/-- Per-author aggregation (lines 382-385): as for venues, `pub_count` counts
the exploded rows of the group whose title is present, `cites` sums their
citations. -/
def authorGroups (l : List Record) : List (String × Nat × Int) :=
  (authorKeys l).map (fun a =>
    (a, ((keptAuthors l).filter (fun p => decide (p.1 = a))).countP (fun p => p.2.title.isSome),
      (((keptAuthors l).filter (fun p => decide (p.1 = a))).map (fun p => p.2.cited_by)).sum))

/-- The nonempty stripped fragments of one row's author cell: what the claim
counts per filtered row. -/
def authorFrags (r : Record) : List String :=
  (authorFragsAll r).filter (fun a => decide (¬a = ""))

theorem countP_split (p : α → Bool) (l : List α) :
    l.countP p + l.countP (fun a => !p a) = l.length := by
  induction l with
  | nil => rfl
  | cons a l ih => cases hpa : p a <;> simp [List.countP_cons, hpa, ← ih] <;> omega

/-- Counting rows once per key: over a duplicate-free key list `K` covering
every row's key, the per-key counts add up to the number of rows. -/
theorem sum_countP_by_key [DecidableEq β] (key : α → Option β) :
    ∀ (K : List β) (qs : List α), K.Nodup →
      (∀ a ∈ qs, ∃ k, key a = some k ∧ k ∈ K) →
      (K.map (fun k => qs.countP (fun a => decide (key a = some k)))).sum = qs.length := by
  intro K
  induction K with
  | nil =>
    intro qs _ hcov
    cases qs with
    | nil => rfl
    | cons a qs =>
      obtain ⟨k, _, hk⟩ := hcov a (List.mem_cons_self a qs)
      exact absurd hk (List.not_mem_nil k)
  | cons k K ih =>
    intro qs hnd hcov
    rw [List.nodup_cons] at hnd
    simp only [List.map_cons, List.sum_cons]
    have hrest : ∀ j ∈ K,
        qs.countP (fun a => decide (key a = some j)) =
          (qs.filter (fun a => !decide (key a = some k))).countP
            (fun a => decide (key a = some j)) := by
      intro j hj
      rw [List.countP_filter]
      apply List.countP_congr
      intro a _
      constructor
      · intro haj
        have h1 : key a = some j := of_decide_eq_true haj
        have h2 : decide (key a = some k) = false := by
          apply decide_eq_false
          intro hk2
          rw [hk2] at h1
          cases h1
          exact hnd.1 hj
        rw [h1]
        simp [h2]
        intro he
        exact hnd.1 (he ▸ hj)
      · intro hconj
        exact (Bool.and_eq_true .. |>.mp hconj).1
    have hcov2 : ∀ a ∈ qs.filter (fun a => !decide (key a = some k)),
        ∃ j, key a = some j ∧ j ∈ K := by
      intro a ha
      obtain ⟨j, hj, hjk⟩ := hcov a (List.mem_of_mem_filter ha)
      have hne := List.of_mem_filter ha
      refine ⟨j, hj, ?_⟩
      rcases List.mem_cons.mp hjk with h | h
      · exfalso
        rw [h] at hj
        rw [decide_eq_true hj] at hne
        exact Bool.false_ne_true hne
      · exact h
    rw [List.map_congr_left hrest, ih _ hnd.2 hcov2, ← List.countP_eq_length_filter]
    exact countP_split _ qs

theorem length_filter_map_pair (frags : List String) (r : Record) :
    ((frags.map (fun a => (a, r))).filter
        (fun p => p.2.title.isSome && decide (¬p.1 = ""))).length =
      (frags.filter (fun a => r.title.isSome && decide (¬a = ""))).length := by
  induction frags with
  | nil => rfl
  | cons a frags ih =>
    simp only [List.map_cons, List.filter_cons]
    by_cases hq : (r.title.isSome = true ∧ ¬a = "")
    · simp [hq] at ih ⊢
      exact ih
    · simp [hq] at ih ⊢
      exact ih

/-- The kept exploded rows with a present title, counted row by row: one
summand per record whose title is present, worth its nonempty fragments. -/
theorem kept_title_length (l : List Record) :
    ((explodedAuthors l).filter (fun p => p.2.title.isSome && decide (¬p.1 = ""))).length =
      ((l.filter (fun r => r.title.isSome)).map (fun r => (authorFrags r).length)).sum := by
  induction l with
  | nil => rfl
  | cons r l ih =>
    have hexp : explodedAuthors (r :: l) =
        (authorFragsAll r).map (fun a => (a, r)) ++ explodedAuthors l := by
      unfold explodedAuthors
      rw [List.flatMap_cons]
    rw [hexp, List.filter_append, List.length_append, ih,
      length_filter_map_pair]
    by_cases ht : r.title.isSome = true
    · have h1 : (authorFragsAll r).filter (fun a => r.title.isSome && decide (¬a = "")) =
          authorFrags r := by
        unfold authorFrags
        apply List.filter_congr
        intro a _
        rw [ht, Bool.true_and]
      rw [h1]
      simp [List.filter_cons, ht]
    · have hf : r.title.isSome = false := by
        revert ht
        cases r.title.isSome <;> simp
      have h1 : (authorFragsAll r).filter (fun a => r.title.isSome && decide (¬a = "")) = [] := by
        apply List.filter_eq_nil_iff.mpr
        intro a _
        rw [hf]
        simp
      rw [h1]
      simp [List.filter_cons, hf]

theorem sum_countP_by_key_total [DecidableEq β] (key : α → β) (K : List β)
    (qs : List α) (hnd : K.Nodup) (hcov : ∀ a ∈ qs, key a ∈ K) :
    (K.map (fun k => qs.countP (fun a => decide (key a = k)))).sum = qs.length := by
  have h := sum_countP_by_key (fun a => some (key a)) K qs hnd
    (fun a ha => ⟨key a, rfl, hcov a ha⟩)
  rw [← h]
  apply congrArg
  apply List.map_congr_left
  intro k _
  apply List.countP_congr
  intro a _
  simp

/-- Claim C3, amended.  The per-venue counts add up not to the whole filtered
row count but to the number of filtered rows with a present source AND a
present title: `groupby("source")` silently drops rows whose source is
missing, and the named aggregation `("title", "count")` skips rows whose
title is missing.  Likewise the per-author counts add up to the nonempty
stripped author fragments of the rows with a present title only.  On rows
where source and title are both present (the normal case) this is exactly the
conservation the spec states. -/
theorem claim3_amended (l : List Record) :
    ((venueGroups l).map (fun g => g.2.1)).sum =
      (l.filter (fun r => r.source.isSome && r.title.isSome)).length ∧
    ((authorGroups l).map (fun g => g.2.1)).sum =
      ((l.filter (fun r => r.title.isSome)).map (fun r => (authorFrags r).length)).sum := by
  constructor
  · have hmap : (venueGroups l).map (fun g => g.2.1) =
        (venueKeys l).map (fun s =>
          (l.filter (fun r => decide (r.source = some s))).countP
            (fun r => r.title.isSome)) := by
      unfold venueGroups
      rw [List.map_map]
      rfl
    have hkey : ∀ s : String,
        (l.filter (fun r => decide (r.source = some s))).countP
            (fun r => r.title.isSome) =
          (l.filter (fun r => r.source.isSome && r.title.isSome)).countP
            (fun r => decide (r.source = some s)) := by
      intro s
      rw [List.countP_filter, List.countP_filter]
      apply List.countP_congr
      intro r _
      constructor
      · intro h
        rw [Bool.and_eq_true] at h
        have hs : r.source.isSome = true := by
          rw [of_decide_eq_true h.2]
          rfl
        simp [h.1, h.2, hs]
      · intro h
        rw [Bool.and_eq_true] at h
        have h2 := h.2
        rw [Bool.and_eq_true] at h2
        simp [h.1, h2.2]
    rw [hmap, List.map_congr_left (fun s _ => hkey s)]
    apply sum_countP_by_key Record.source (venueKeys l) _ (List.nodup_dedup _)
    intro a ha
    have h1 := List.of_mem_filter ha
    rw [Bool.and_eq_true] at h1
    obtain ⟨k, hk⟩ := Option.isSome_iff_exists.mp h1.1
    refine ⟨k, hk, ?_⟩
    unfold venueKeys
    exact List.mem_dedup.mpr (List.mem_filterMap.mpr ⟨a, List.mem_of_mem_filter ha, hk⟩)
  · have hmap : (authorGroups l).map (fun g => g.2.1) =
        (authorKeys l).map (fun a =>
          ((keptAuthors l).filter (fun p => decide (p.1 = a))).countP
            (fun p => p.2.title.isSome)) := by
      unfold authorGroups
      rw [List.map_map]
      rfl
    have hkey : ∀ a : String,
        ((keptAuthors l).filter (fun p => decide (p.1 = a))).countP
            (fun p => p.2.title.isSome) =
          ((keptAuthors l).filter (fun p => p.2.title.isSome)).countP
            (fun p => decide (p.1 = a)) := by
      intro a
      rw [List.countP_filter, List.countP_filter]
      apply List.countP_congr
      intro p _
      constructor
      · intro h
        rw [Bool.and_eq_true] at h
        simp [h.1, h.2]
      · intro h
        rw [Bool.and_eq_true] at h
        simp [h.1, h.2]
    have hsum : ((authorKeys l).map (fun a =>
        ((keptAuthors l).filter (fun p => p.2.title.isSome)).countP
          (fun p => decide (p.1 = a)))).sum =
        ((keptAuthors l).filter (fun p => p.2.title.isSome)).length := by
      apply sum_countP_by_key_total Prod.fst (authorKeys l) _ (List.nodup_dedup _)
      intro p hp
      unfold authorKeys
      exact List.mem_dedup.mpr
        (List.mem_map.mpr ⟨p, List.mem_of_mem_filter hp, rfl⟩)
    have hlen : ((keptAuthors l).filter (fun p => p.2.title.isSome)).length =
        ((l.filter (fun r => r.title.isSome)).map (fun r => (authorFrags r).length)).sum := by
      unfold keptAuthors
      rw [List.filter_filter]
      exact kept_title_length l
    rw [hmap, List.map_congr_left (fun a _ => hkey a), hsum, hlen]

/-- A record whose source and title cells are both missing (exported cells of
a spreadsheet can be blank; the loader leaves them as `NaN`). -/
def recBare : Record :=
  { authors_raw := some "Orphan A.", title := none, year := some 2020,
    source := none, cited_by := 0, quartile := none, percentile_2024 := none }

/-- Claim C3, counterexample.  On a one-row set whose source and title are
missing, the per-venue counts sum to 0 — `groupby("source")` drops the row —
while the filtered set has 1 row; and the per-author counts also sum to 0 —
`("title", "count")` skips the missing title — while the row contributes one
nonempty author fragment.  Both claimed identities fail. -/
theorem claim3_counterexample :
    ((venueGroups [recBare]).map (fun g => g.2.1)).sum ≠
        ([recBare] : List Record).length ∧
    ((authorGroups [recBare]).map (fun g => g.2.1)).sum ≠
        (([recBare] : List Record).map (fun r => (authorFrags r).length)).sum := by
  decide

end ZhDash
